import Mathlib

/-!
Verification of the G1/region garbage-collection core of the OpenJDK 9
HotSpot sources: object-header forwarding and identity hash
(oops/oop.inline.hpp), compressed-oop encoding (oops/oop.inline.hpp),
PLAB adaptive sizing (gc/g1/g1EvacStats.cpp), heap-region lifecycle and
card scanning (gc/g1/heapRegion.cpp), and the concurrent refinement
thread chain (gc/g1/concurrentG1RefineThread.cpp).

Machine words are modelled as `Nat` with explicit `% 2^64` where unsigned
overflow matters; the platform is the 64-bit one (HeapWordSize = 8,
LogHeapWordSize = 3).
-/

namespace GC

/-! ### Mark word (object header)

Modelled from the spec: the mark-word encoding (`markOopDesc`, file
oops/markOop.hpp) is not among the sources; per spec section 3, the header
packs one of {unlocked-with-identity-hash, locked-with-stack-lock-pointer,
forwarded-with-target-address, marked-with-age} into one machine word,
distinguished by low-order tag bits.  The standard HotSpot tags are used:
the two low bits are 11 for a marked/forwarded header and the low three
bits are 001 for an unlocked header; the identity hash occupies bits
8..38 of an unlocked header.  oops/oop.inline.hpp (in the sources) states
that decoding a forwarding pointer "does need to clear the low two
locking- and GC-related bits". -/

/-- Tag test for a marked (= forwarded, during evacuation) mark word:
the two low-order bits are both set.  `markOopDesc::is_marked`. -/
def isMarkedWord (m : Nat) : Bool := m % 4 == 3

/-- Tag test for an unlocked mark word: low three bits are 001.
`markOopDesc::is_unlocked`. -/
def isUnlocked (m : Nat) : Bool := m % 8 == 1

/-- Identity-hash field of a mark word (31 bits starting at bit 8).
`markOopDesc::hash`. -/
def markHash (m : Nat) : Nat := (m >>> 8) % 2 ^ 31

/-- `markOopDesc::has_no_hash`: the hash field still holds the
distinguished `no_hash` value 0. -/
def hasNoHash (m : Nat) : Bool := markHash m == 0

/-- `markOopDesc::encode_pointer_as_mark`: tag an (object-aligned, hence
8-divisible) forwarding-target address by setting the two low-order mark
bits, i.e. adding the marked tag 3. -/
def encodePointerAsMark (p : Nat) : Nat := p + 3

/-- `markOopDesc::decode_pointer`: recover the forwarding target by
clearing the two low-order locking- and GC-related bits (the comment above
`oopDesc::forwardee` in oops/oop.inline.hpp). -/
def decodePointer (m : Nat) : Nat := m - m % 4

/-! ### Forwarding (oops/oop.inline.hpp) -/

/-- `oopDesc::forwardee`: decode the mark word as an address. -/
def forwardee (m : Nat) : Nat := decodePointer m

/-- `oopDesc::forward_to_atomic(p)`, linearized at its compare-and-swap:
given the current header `m`, if the header is already marked (another
thread forwarded the object first, so the CAS loop exits), the header is
left unchanged and the already-installed forwardee is returned; otherwise
the CAS installs the forwarding encoding of `p` and the call returns NULL
(`none`).  Result: (new header, returned oop). -/
def forwardToAtomic (m p : Nat) : Nat × Option Nat :=
  if isMarkedWord m then (m, some (decodePointer m)) else (encodePointerAsMark p, none)

/-- Header after a sequence of further `forward_to_atomic` attempts (by
any threads, with any targets) during the same evacuation pause. -/
def runForwardAttempts (m : Nat) (ps : List Nat) : Nat :=
  ps.foldl (fun mk p => (forwardToAtomic mk p).1) m

/-! ### Identity hash dispatch (oops/oop.inline.hpp) -/

/-- Outcome of `oopDesc::identity_hash()`: either the hash bits read
directly from the (locally copied) mark word — a pure read, no header
mutation — or the out-of-line `slow_identity_hash()` path. -/
inductive IdentityHashResult where
  | fromMark (h : Nat)
  | slow
deriving DecidableEq, Repr

/-- `oopDesc::identity_hash()` dispatch on the mark word `m`: unlocked
with a cached hash, or marked, reads the hash from the mark word;
everything else goes to `slow_identity_hash()`. -/
def identityHash (m : Nat) : IdentityHashResult :=
  if isUnlocked m && !hasNoHash m then .fromMark (markHash m)
  else if isMarkedWord m then .fromMark (markHash m)
  else .slow

/-! ### Compressed oops (oops/oop.inline.hpp)

`narrow_oop_base`/`narrow_oop_shift` are configuration parameters
(`Universe`, outside the sources); they appear here as explicit
arguments. Pointer arithmetic is 64-bit unsigned. -/

/-- `pointer_delta(v, base, 1)`: unsigned 64-bit subtraction. -/
def pointerDelta (v base : Nat) : Nat := (2 ^ 64 + v - base) % 2 ^ 64

/-- `oopDesc::encode_heap_oop_not_null`: `(a - base) >> shift`, truncated
to the 32-bit `narrowOop`. -/
def encodeHeapOopNotNull (base shift v : Nat) : Nat :=
  (pointerDelta v base >>> shift) % 2 ^ 32

/-- `oopDesc::encode_heap_oop`: NULL maps to narrow 0. -/
def encodeHeapOop (base shift v : Nat) : Nat :=
  if v = 0 then 0 else encodeHeapOopNotNull base shift v

/-- `oopDesc::decode_heap_oop_not_null`: `base + (v << shift)` in 64-bit
address arithmetic. -/
def decodeHeapOopNotNull (base shift nv : Nat) : Nat :=
  (base + (nv <<< shift)) % 2 ^ 64

/-- `oopDesc::decode_heap_oop`: narrow 0 maps to NULL. -/
def decodeHeapOop (base shift nv : Nat) : Nat :=
  if nv = 0 then 0 else decodeHeapOopNotNull base shift nv

/-! ### PLAB adaptive sizing (gc/g1/g1EvacStats.cpp)

`G1EvacStats` extends `PLABStats` (gc/shared/plab.hpp, not among the
sources).  Counters are in heap words.  Configuration — the flags
`ResizePLAB`, `TargetPLABWastePct`, `G1LastPLABAverageOccupancy` (a
percentage, a C++ double modelled exactly as a rational), the PLAB
min/max bounds and the object alignment — is passed explicitly. -/

/-- Configuration surrounding `G1EvacStats::adjust_desired_plab_sz`. -/
structure PlabConfig where
  resizePLAB : Bool
  targetPLABWastePct : Nat
  lastPLABAverageOccupancy : ℚ
  filterWeight : Nat
  minSize : Nat
  maxSize : Nat
  objAlignment : Nat
deriving Repr

/-- Accumulator and filter state of a `G1EvacStats` instance
(`PLABStats` base fields plus the G1-specific counters of the
`G1EvacStats` constructor). -/
structure EvacStats where
  allocated : Nat
  wasted : Nat
  unused : Nat
  regionEndWaste : Nat
  regionsFilled : Nat
  directAllocated : Nat
  failureUsed : Nat
  failureWaste : Nat
  desiredNetPlabSz : Nat
  filterAvg : ℚ
deriving Repr

/-- Modelled from the spec: the per-round `reset()` (declared in the
missing plab.hpp / g1EvacStats.hpp headers) — "counters reset at the end
of every adjustment; the moving average persists across collections"
(spec section 3).  All per-collection accumulators return to zero; the
filter state and the stored desired size survive. -/
def resetStats (s : EvacStats) : EvacStats :=
  { s with allocated := 0, wasted := 0, unused := 0, regionEndWaste := 0,
           regionsFilled := 0, directAllocated := 0, failureUsed := 0, failureWaste := 0 }

/-- Modelled from the spec: the exponentially-weighted moving-average
filter (`AdaptiveWeightedAverage`, gc/shared/gcUtil.hpp, not among the
sources) — spec section 4.5 "feed `cur` into an exponentially-weighted
moving-average filter".  One sample step with weight `w` percent. -/
def ewmaSample (w : Nat) (avg sample : ℚ) : ℚ :=
  (((100 : ℚ) - w) * avg + w * sample) / 100

/-- Modelled from the spec: `PLABStats::used()` (missing plab.hpp); spec
section 4.5 takes the bytes allocated through the buffer as the usage
input of the waste computation ("compute `used = allocated −
region_end_waste`", the subtraction being done by the adjust routine
itself). -/
def plabUsed (allocated : Nat) : Nat := allocated

/-- Condition of the first assert of `adjust_desired_plab_sz`
("PLAB clipping computation may be incorrect"). -/
def plabClippingAssert (c : PlabConfig) : Bool :=
  (c.maxSize % c.objAlignment == 0) && (c.minSize ≤ c.maxSize)

/-- Condition of the assert guarding the `_allocated == 0` substitution:
the code checks `_unused == 0` (the message additionally prints
`_wasted`, `_region_end_waste` and `used()`, but they are not part of the
checked condition).  The predicate is the assert's pass condition:
vacuously true when `_allocated != 0`. -/
def zeroAllocAssert (s : EvacStats) : Bool :=
  s.allocated != 0 || s.unused == 0

/-- `G1EvacStats::adjust_desired_plab_sz()`: with `ResizePLAB` off, only
reset the accumulators; otherwise substitute `_allocated = 1` when zero,
compute `used_for_waste_calculation = used() > _region_end_waste ?
used() - _region_end_waste : 0`, `total_waste_allowed =
used_for_waste_calculation * TargetPLABWastePct`, `cur_plab_sz =
(size_t)((double)total_waste_allowed / G1LastPLABAverageOccupancy)`,
sample the filter, store `_desired_net_plab_sz = MAX2(min_size(),
(size_t)_filter.average())`, and reset the accumulators. -/
def adjustDesiredPlabSz (c : PlabConfig) (s : EvacStats) : EvacStats :=
  if !c.resizePLAB then resetStats s
  else
    let alloc := if s.allocated = 0 then 1 else s.allocated
    let u := plabUsed alloc
    let usedForWasteCalculation := if u > s.regionEndWaste then u - s.regionEndWaste else 0
    let totalWasteAllowed := usedForWasteCalculation * c.targetPLABWastePct
    let curPlabSz : Nat :=
      ((totalWasteAllowed : ℚ) / c.lastPLABAverageOccupancy).floor.toNat
    let newAvg := ewmaSample c.filterWeight s.filterAvg (curPlabSz : ℚ)
    let newDesired := max c.minSize newAvg.floor.toNat
    resetStats { s with allocated := alloc, filterAvg := newAvg, desiredNetPlabSz := newDesired }

/-! ### Concurrent refinement thread chain
(gc/g1/concurrentG1RefineThread.cpp)

A non-primary `ConcurrentG1RefineThread` as seen by its predecessor in
the chain: the `_active` flag (its `is_active()`), and its two
thresholds. -/

/-- Per-thread refinement state. -/
structure RefineThread where
  active : Bool
  activationThreshold : Nat
  deactivationThreshold : Nat
deriving DecidableEq, Repr

/-- `ConcurrentG1RefineThread::update_thresholds(activate, deactivate)`;
the caller must satisfy the `assert(deactivate < activate)`. -/
def updateThresholds (t : RefineThread) (activate deactivate : Nat) : RefineThread :=
  { t with activationThreshold := activate, deactivationThreshold := deactivate }

/-- The successor-activation step of `run_service`: `if ((_next != NULL)
&& !_next->is_active() && (curr_buffer_num > _next->_activation_threshold))
_next->activate();` — where `activate()` on a non-primary thread sets its
`_active` flag. -/
def maybeActivateNext (next : Option RefineThread) (currBufferNum : Nat) :
    Option RefineThread :=
  match next with
  | none => none
  | some t =>
    if !t.active && decide (currBufferNum > t.activationThreshold) then
      some { t with active := true }
    else
      some t

/-! ### Humongous card scanning (gc/g1/heapRegion.cpp)

Inputs of `do_oops_on_card_in_humongous` for a humongous region: whether
a collection is actively running (`G1CollectedHeap::is_gc_active`),
whether the start object's klass pointer has been published
(`klass_or_null_acquire() != NULL`), whether the liveness oracle reports
the object dead (`is_obj_dead`), whether it is an object array, and
whether the start region's bottom lies below the card range
(`sr->bottom() < mr.start()`).  All five are external queries, modelled
as booleans. -/

/-- Extent to which the visitor is applied; in every case at most the
references of the single humongous object rooted at the start region are
visited (never filler or follower objects). -/
inductive HumongousVisit where
  /-- Visitor applied to no reference at all. -/
  | nothing
  /-- `obj->oop_iterate(cl, mr)`: references of the start object within
  the card range. -/
  | boundedObj
  /-- `obj->oop_iterate(cl)`: all references of the start object. -/
  | fullObj
deriving DecidableEq, Repr

/-- `do_oops_on_card_in_humongous(mr, cl, hr, g1h)`: result value and the
visitor application performed. -/
def doOopsOnCardInHumongous (gcActive klassPublished objDead isObjArray
    cardAboveBottom : Bool) : Bool × HumongousVisit :=
  if !gcActive && !klassPublished then (false, .nothing)
  else if !objDead then
    if isObjArray || cardAboveBottom then (true, .boundedObj) else (true, .fullObj)
  else (true, .nothing)

/-- `HeapRegion::oops_on_card_seq_iterate_careful` on a humongous region:
dispatches to `do_oops_on_card_in_humongous`. -/
def oopsOnCardHumongous (gcActive klassPublished objDead isObjArray
    cardAboveBottom : Bool) : Bool × HumongousVisit :=
  doOopsOnCardInHumongous gcActive klassPublished objDead isObjArray cardAboveBottom

/-! ### Heap-region lifecycle (gc/g1/heapRegion.cpp) -/

/-- `HeapRegionType` tags (heapRegionType.hpp). -/
inductive RegionType where
  | Free | Eden | Survivor | Old | Archive | StartsHumongous | ContinuesHumongous
deriving DecidableEq, Repr

/-- A `HeapRegion` as touched by `hr_clear` / `G1ContiguousSpace::clear`.
Addresses are in heap words; the remembered set is the list of recorded
entries (only its emptiness matters to the claims); the block-offset
table internals are not modelled (no claim concerns them).  The helper
setters called by `hr_clear` that live in the missing headers
(`set_free`, `set_young_index_in_cset`, `uninstall_surv_rate_group`,
`reset_pre_dummy_top`, `zero_marked_bytes`, `init_top_at_mark_start`) set
the correspondingly named fields. -/
structure HeapRegionState where
  typ : RegionType
  bottom : Nat
  top : Nat
  endAddr : Nat
  scanTop : Nat
  compactionTop : Nat
  remSet : List Nat
  allocationContext : Nat
  youngIndexInCset : Int
  survRateGroup : Option Nat
  preDummyTop : Option Nat
  prevMarkedBytes : Nat
  nextMarkedBytes : Nat
  prevTopAtMarkStart : Nat
  nextTopAtMarkStart : Nat
  gcTimeStamp : Nat
  humongousStartRegion : Option Nat
  inCollectionSet : Bool
deriving Repr

/-- `AllocationContext::system()` (allocationContext.hpp, a constant). -/
def systemAllocationContext : Nat := 0

/-- `G1ContiguousSpace::clear(mangle_space)`: `set_top(bottom())`,
`_scan_top = bottom()`, `CompactibleSpace::clear` (which resets the
compaction top to bottom; space.cpp is not among the sources), and the
block-offset-table reset (not modelled). -/
def g1ContiguousSpaceClear (r : HeapRegionState) : HeapRegionState :=
  { r with top := r.bottom, scanTop := r.bottom, compactionTop := r.bottom }

/-- `HeapRegion::hr_clear(keep_remset, clear_space, locked)`.  The two
leading asserts (`_humongous_start_region == NULL`, `!in_collection_set()`)
appear as hypotheses of the theorems.  `heapTimeStamp` is
`G1CollectedHeap::heap()->get_gc_time_stamp()`. -/
def hrClear (keepRemset clearSpace locked : Bool) (heapTimeStamp : Nat)
    (r : HeapRegionState) : HeapRegionState :=
  let r1 := { r with allocationContext := systemAllocationContext,
                     youngIndexInCset := -1,
                     survRateGroup := none,
                     typ := RegionType.Free,
                     preDummyTop := none }
  let r2 := if keepRemset then r1 else { r1 with remSet := [] }
  let r3 := { r2 with prevMarkedBytes := 0, nextMarkedBytes := 0 }
  let r4 := { r3 with prevTopAtMarkStart := r3.bottom, nextTopAtMarkStart := r3.bottom }
  let r5 := { r4 with gcTimeStamp := heapTimeStamp }
  if clearSpace then g1ContiguousSpaceClear r5 else r5

/-! ### Region-size setup (gc/g1/heapRegion.cpp)

`HeapRegion::setup_heap_region_size`.  `HeapRegionBounds`
(heapRegionBounds.hpp) is not among the sources; its min/max region sizes
and target region number are passed as parameters, with the
power-of-two-ness of the fixed bounds appearing as hypotheses (modelled
from the spec, which treats the exact tuning constants as out of scope).
`CardTableModRefBS::card_shift` is likewise a parameter.  The platform
`LogHeapWordSize` is 3. -/

/-- The five globals set up exactly once by `setup_heap_region_size`. -/
structure HRGlobals where
  logOfHRGrainBytes : Nat
  logOfHRGrainWords : Nat
  grainBytes : Nat
  grainWords : Nat
  cardsPerRegion : Nat
deriving DecidableEq, Repr

/-- Floor base-2 logarithm by repeated halving, fuelled so that the
recursion is structural; `fuel` bounds the iteration count (any
`fuel ≥ x` is exact). -/
def log2Fuel : Nat → Nat → Nat
  | 0, _ => 0
  | fuel + 1, x => if x < 2 then 0 else log2Fuel fuel (x / 2) + 1

/-- `log2_long`: floor of the base-2 logarithm (callers pass positive
values). -/
def log2Long (x : Nat) : Nat := log2Fuel x x

/-- `HeapRegion::setup_heap_region_size(initial_heap_size,
max_heap_size)`: choose the region size (flag value, or average heap
size over the target region number clipped below by the minimum bound),
round it down to a power of two, clamp it into the bounds, and publish
the five globals.  The second component collects the `guarantee`
conditions: each global must still be zero, and the recomputed
`(1 << LogOfHRGrainWords) == GrainWords` sanity check. -/
def setupHeapRegionSize (minSize maxSize targetNumber cardShift : Nat)
    (g1HeapRegionSize : Nat) (flagIsDefault : Bool)
    (initialHeapSize maxHeapSize : Nat) (g : HRGlobals) : HRGlobals × Bool :=
  let regionSize0 :=
    if flagIsDefault then
      max ((initialHeapSize + maxHeapSize) / 2 / targetNumber) minSize
    else g1HeapRegionSize
  let regionSizeLog0 := log2Long regionSize0
  let regionSize1 := 1 <<< regionSizeLog0
  let regionSize2 :=
    if regionSize1 < minSize then minSize
    else if maxSize < regionSize1 then maxSize
    else regionSize1
  let regionSizeLog := log2Long regionSize2
  let gOut : HRGlobals :=
    { logOfHRGrainBytes := regionSizeLog,
      logOfHRGrainWords := regionSizeLog - 3,
      grainBytes := regionSize2,
      grainWords := regionSize2 >>> 3,
      cardsPerRegion := regionSize2 >>> cardShift }
  let ok := (g.logOfHRGrainBytes == 0) && (g.logOfHRGrainWords == 0) &&
            (g.grainBytes == 0) && (g.grainWords == 0) && (g.cardsPerRegion == 0) &&
            ((1 <<< gOut.logOfHRGrainWords) == gOut.grainWords)
  (gOut, ok)

/-! ## Theorems -/

/-- Any further `forward_to_atomic` attempts leave a marked header
untouched. -/
theorem runForwardAttempts_of_marked (m : Nat) (ps : List Nat)
    (h : isMarkedWord m = true) : runForwardAttempts m ps = m := by
  induction ps with
  | nil => rfl
  | cons p ps ih =>
    simp only [runForwardAttempts, List.foldl_cons, forwardToAtomic, h, if_true]
    exact ih

/-- C1: once `forward_to_atomic` succeeds for an object with header `m`
installing the (object-aligned) target `T` during an evacuation pause —
success being the `NULL` return — the header holds the forwarding
encoding of `T`, every subsequent `forwardee()` read returns `T`, no
later `forward_to_atomic` attempt (with any targets `ps`) changes the
header, and a later attempt with a different target `q` fails and
returns the already-installed forwardee `T` instead of installing `q`. -/
theorem forward_to_atomic_monotonic (m T q : Nat) (ps : List Nat)
    (hm : isMarkedWord m = false) (hT : 8 ∣ T) :
    (forwardToAtomic m T).2 = none ∧
    forwardee (forwardToAtomic m T).1 = T ∧
    runForwardAttempts (forwardToAtomic m T).1 ps = (forwardToAtomic m T).1 ∧
    forwardee (runForwardAttempts (forwardToAtomic m T).1 ps) = T ∧
    (forwardToAtomic (forwardToAtomic m T).1 q).2 = some T := by
  obtain ⟨k, rfl⟩ := hT
  have h1 : forwardToAtomic m (8 * k) = (8 * k + 3, none) := by
    simp [forwardToAtomic, hm, encodePointerAsMark]
  have hmark : isMarkedWord (8 * k + 3) = true := by
    simp only [isMarkedWord, beq_iff_eq]
    omega
  have hdec : decodePointer (8 * k + 3) = 8 * k := by
    simp only [decodePointer]
    omega
  have hrun : runForwardAttempts (8 * k + 3) ps = 8 * k + 3 :=
    runForwardAttempts_of_marked _ _ hmark
  refine ⟨by rw [h1], ?_, ?_, ?_, ?_⟩
  · rw [h1]; exact hdec
  · rw [h1]; exact hrun
  · rw [h1, hrun]; exact hdec
  · rw [h1]
    simp only [forwardToAtomic, hmark, if_true]
    rw [hdec]

/-- C1 witness: a concrete unmarked header 1 forwarded to target 16,
followed by attempts with targets 24, 0 and 40. -/
theorem forward_to_atomic_monotonic_witness :
    isMarkedWord 1 = false ∧ 8 ∣ 16 ∧
    ((forwardToAtomic 1 16).2 = none ∧
     forwardee (forwardToAtomic 1 16).1 = 16 ∧
     runForwardAttempts (forwardToAtomic 1 16).1 [24, 0] = (forwardToAtomic 1 16).1 ∧
     forwardee (runForwardAttempts (forwardToAtomic 1 16).1 [24, 0]) = 16 ∧
     (forwardToAtomic (forwardToAtomic 1 16).1 40).2 = some 16) :=
  ⟨by decide, by decide,
   forward_to_atomic_monotonic 1 16 40 [24, 0] (by decide) (by decide)⟩

/-- C2: pointer-compression round trip.  For every nonnull address `a`
strictly above the configured base, object-aligned (`2^shift ∣ a`, with
the base likewise aligned) and within the configured encoding range
(`a - base < 2^(32+shift)`), decoding the encoding returns `a`; and for
every narrow value `v < 2^32` whose decoding stays within the 64-bit
address space, encoding the decoding returns `v`. -/
theorem heap_oop_roundtrip (base shift a v : Nat)
    (hb : base < 2 ^ 64) (ha : a < 2 ^ 64)
    (haz : a = 0 ∨ base < a)
    (hal : 2 ^ shift ∣ a) (hbal : 2 ^ shift ∣ base)
    (hrange : a - base < 2 ^ (32 + shift))
    (hv : v < 2 ^ 32)
    (hvr : base + v * 2 ^ shift < 2 ^ 64) :
    decodeHeapOop base shift (encodeHeapOop base shift a) = a ∧
    encodeHeapOop base shift (decodeHeapOop base shift v) = v := by
  have hpow : (0:Nat) < 2 ^ shift := Nat.pos_pow_of_pos shift (by norm_num)
  constructor
  · rcases haz with rfl | hba
    · simp [encodeHeapOop, decodeHeapOop]
    · have hane : a ≠ 0 := by omega
      have hpd : pointerDelta a base = a - base := by
        simp only [pointerDelta]
        have h1 : 2 ^ 64 + a - base = 2 ^ 64 + (a - base) := by omega
        rw [h1, Nat.add_mod_left, Nat.mod_eq_of_lt (by omega)]
      obtain ⟨q, hq⟩ : 2 ^ shift ∣ (a - base) := Nat.dvd_sub' hal hbal
      have hqlt : q < 2 ^ 32 := by
        have h2 : 2 ^ shift * q < 2 ^ shift * 2 ^ 32 := by
          rw [← hq]
          calc a - base < 2 ^ (32 + shift) := hrange
            _ = 2 ^ shift * 2 ^ 32 := by rw [Nat.add_comm 32 shift, Nat.pow_add]
        exact Nat.lt_of_mul_lt_mul_left h2
      have hqne : q ≠ 0 := by
        rintro rfl
        simp only [Nat.mul_zero] at hq
        omega
      have henc : encodeHeapOop base shift a = q := by
        simp only [encodeHeapOop, if_neg hane, encodeHeapOopNotNull, hpd,
          Nat.shiftRight_eq_div_pow, hq, Nat.mul_div_cancel_left _ hpow]
        exact Nat.mod_eq_of_lt hqlt
      rw [henc]
      simp only [decodeHeapOop, if_neg hqne, decodeHeapOopNotNull, Nat.shiftLeft_eq]
      have hba2 : base + q * 2 ^ shift = a := by
        rw [Nat.mul_comm, ← hq]
        omega
      rw [hba2, Nat.mod_eq_of_lt ha]
  · rcases Nat.eq_zero_or_pos v with rfl | hvpos
    · simp [encodeHeapOop, decodeHeapOop]
    · have hvne : v ≠ 0 := by omega
      have hdv : decodeHeapOop base shift v = base + v * 2 ^ shift := by
        simp only [decodeHeapOop, if_neg hvne, decodeHeapOopNotNull, Nat.shiftLeft_eq]
        exact Nat.mod_eq_of_lt hvr
      have hdne : base + v * 2 ^ shift ≠ 0 := by
        have : 1 * 1 ≤ v * 2 ^ shift := Nat.mul_le_mul hvpos hpow
        omega
      rw [hdv]
      simp only [encodeHeapOop, if_neg hdne, encodeHeapOopNotNull]
      have hpd : pointerDelta (base + v * 2 ^ shift) base = v * 2 ^ shift := by
        simp only [pointerDelta]
        have h1 : 2 ^ 64 + (base + v * 2 ^ shift) - base = 2 ^ 64 + v * 2 ^ shift := by
          omega
        rw [h1, Nat.add_mod_left, Nat.mod_eq_of_lt (by omega)]
      rw [hpd, Nat.shiftRight_eq_div_pow, Nat.mul_div_cancel _ hpow]
      exact Nat.mod_eq_of_lt hv

/-- C2 witness: base `2^32`, shift 3, the in-heap aligned address
`2^32 + 8`, and the narrow value 5. -/
theorem heap_oop_roundtrip_witness :
    ((2:Nat) ^ 32 < 2 ^ 64 ∧ (2:Nat) ^ 32 + 8 < 2 ^ 64 ∧
     (2:Nat) ^ 32 < 2 ^ 32 + 8 ∧ (2:Nat) ^ 3 ∣ 2 ^ 32 + 8 ∧ (2:Nat) ^ 3 ∣ 2 ^ 32 ∧
     (2:Nat) ^ 32 + 8 - 2 ^ 32 < 2 ^ (32 + 3) ∧ (5:Nat) < 2 ^ 32 ∧
     (2:Nat) ^ 32 + 5 * 2 ^ 3 < 2 ^ 64) ∧
    decodeHeapOop (2 ^ 32) 3 (encodeHeapOop (2 ^ 32) 3 (2 ^ 32 + 8)) = 2 ^ 32 + 8 ∧
    encodeHeapOop (2 ^ 32) 3 (decodeHeapOop (2 ^ 32) 3 5) = 5 :=
  ⟨⟨by norm_num, by norm_num, by norm_num, by norm_num, by norm_num,
    by norm_num, by norm_num, by norm_num⟩,
   heap_oop_roundtrip (2 ^ 32) 3 (2 ^ 32 + 8) 5 (by norm_num) (by norm_num)
     (Or.inr (by norm_num)) (by norm_num) (by norm_num) (by norm_num)
     (by norm_num) (by norm_num)⟩

/-- C3 counterexample: a round in which the filter average lands on
10000001, above `max_size = 1024` and not a multiple of the object
alignment 2, while the function's own entry assert passes; the stored
`_desired_net_plab_sz` is neither clamped to `max_size` nor
object-aligned, refuting the claimed invariant. -/
theorem plab_desired_exceeds_max_cex :
    plabClippingAssert ⟨true, 1, 1, 100, 64, 1024, 2⟩ = true ∧
    (adjustDesiredPlabSz ⟨true, 1, 1, 100, 64, 1024, 2⟩
      ⟨10000001, 0, 0, 0, 0, 0, 0, 0, 0, 0⟩).desiredNetPlabSz = 10000001 ∧
    ¬((adjustDesiredPlabSz ⟨true, 1, 1, 100, 64, 1024, 2⟩
      ⟨10000001, 0, 0, 0, 0, 0, 0, 0, 0, 0⟩).desiredNetPlabSz ≤
        (⟨true, 1, 1, 100, 64, 1024, 2⟩ : PlabConfig).maxSize) ∧
    ¬((⟨true, 1, 1, 100, 64, 1024, 2⟩ : PlabConfig).objAlignment ∣
      (adjustDesiredPlabSz ⟨true, 1, 1, 100, 64, 1024, 2⟩
        ⟨10000001, 0, 0, 0, 0, 0, 0, 0, 0, 0⟩).desiredNetPlabSz) := by
  norm_num [adjustDesiredPlabSz, resetStats, plabUsed, ewmaSample,
    plabClippingAssert, Rat.floor_def'] <;> decide

/-- C3 amended: after every `adjust_desired_plab_sz` call with adaptive
resizing enabled, the stored desired PLAB size `_desired_net_plab_sz` is
at least `min_size`; clamping to `max_size` and object alignment are not
applied to the stored value inside this function (they are applied later,
when the desired size is read out). -/
theorem plab_desired_at_least_min (c : PlabConfig) (s : EvacStats)
    (h : c.resizePLAB = true) :
    c.minSize ≤ (adjustDesiredPlabSz c s).desiredNetPlabSz := by
  simp only [adjustDesiredPlabSz, h, Bool.not_true, Bool.false_eq_true, if_false,
    resetStats]
  exact Nat.le_max_left _ _

/-- C3 witness: a concrete resizing-enabled round. -/
theorem plab_desired_at_least_min_witness :
    (⟨true, 10, 50, 50, 64, 1024, 1⟩ : PlabConfig).resizePLAB = true ∧
    (⟨true, 10, 50, 50, 64, 1024, 1⟩ : PlabConfig).minSize ≤
      (adjustDesiredPlabSz ⟨true, 10, 50, 50, 64, 1024, 1⟩
        ⟨100, 4, 2, 10, 1, 0, 0, 0, 0, 0⟩).desiredNetPlabSz :=
  ⟨rfl, plab_desired_at_least_min _ _ rfl⟩

/-- C6 counterexample: with object alignment 2 (16-byte alignment on a
64-bit heap), a round whose filtered average is 7 stores the odd value 7
into `_desired_net_plab_sz`: the function performs no rounding to the
allocation alignment, refuting that step of the claim. -/
theorem plab_desired_not_aligned_cex :
    (adjustDesiredPlabSz ⟨true, 1, 1, 100, 4, 1024, 2⟩
      ⟨7, 0, 0, 0, 0, 0, 0, 0, 0, 0⟩).desiredNetPlabSz = 7 ∧
    ¬((⟨true, 1, 1, 100, 4, 1024, 2⟩ : PlabConfig).objAlignment ∣
      (adjustDesiredPlabSz ⟨true, 1, 1, 100, 4, 1024, 2⟩
        ⟨7, 0, 0, 0, 0, 0, 0, 0, 0, 0⟩).desiredNetPlabSz) := by
  norm_num [adjustDesiredPlabSz, resetStats, plabUsed, ewmaSample,
    Rat.floor_def'] <;> decide

/-- C6 amended: with adaptive resizing enabled, `adjust_desired_plab_sz`
computes `used_for_waste = max(used - region_end_waste, 0)` (with
`allocated` treated as 1 when zero), `total_waste_allowed =
used_for_waste * TargetPLABWastePct`, the candidate `cur =
total_waste_allowed / G1LastPLABAverageOccupancy` truncated to an
integer, feeds `cur` to the EWMA filter, stores `max(min_size, filtered
average truncated)` — with no rounding to the allocation alignment — and
resets all per-collection accumulators. -/
theorem adjust_desired_plab_sz_algorithm (c : PlabConfig) (s : EvacStats)
    (h : c.resizePLAB = true) :
    (adjustDesiredPlabSz c s).filterAvg =
      ewmaSample c.filterWeight s.filterAvg
        (((((plabUsed (if s.allocated = 0 then 1 else s.allocated) -
          s.regionEndWaste) * c.targetPLABWastePct : Nat) : ℚ) /
            c.lastPLABAverageOccupancy).floor.toNat : ℚ) ∧
    (adjustDesiredPlabSz c s).desiredNetPlabSz =
      max c.minSize
        (ewmaSample c.filterWeight s.filterAvg
          (((((plabUsed (if s.allocated = 0 then 1 else s.allocated) -
            s.regionEndWaste) * c.targetPLABWastePct : Nat) : ℚ) /
              c.lastPLABAverageOccupancy).floor.toNat : ℚ)).floor.toNat ∧
    (adjustDesiredPlabSz c s).allocated = 0 ∧
    (adjustDesiredPlabSz c s).wasted = 0 ∧
    (adjustDesiredPlabSz c s).unused = 0 ∧
    (adjustDesiredPlabSz c s).regionEndWaste = 0 ∧
    (adjustDesiredPlabSz c s).regionsFilled = 0 ∧
    (adjustDesiredPlabSz c s).directAllocated = 0 ∧
    (adjustDesiredPlabSz c s).failureUsed = 0 ∧
    (adjustDesiredPlabSz c s).failureWaste = 0 := by
  have hsub : ∀ u r : Nat, (if u > r then u - r else 0) = u - r := by
    intro u r
    split <;> omega
  simp only [adjustDesiredPlabSz, h, Bool.not_true, Bool.false_eq_true, if_false,
    hsub, resetStats]
  refine ⟨?_, ?_, ?_, ?_, ?_, ?_, ?_, ?_, ?_, ?_⟩ <;> trivial

/-- C6 witness: the algorithm theorem at a fully concrete round: 100001
words allocated, 100 percent target waste, occupancy fraction 1, filter
weight 100 — the stored desired size becomes 10000100 and the
accumulators drop to zero. -/
theorem adjust_desired_plab_sz_algorithm_witness :
    (⟨true, 100, 1, 100, 64, 1024, 2⟩ : PlabConfig).resizePLAB = true ∧
    (adjustDesiredPlabSz ⟨true, 100, 1, 100, 64, 1024, 2⟩
      ⟨100001, 0, 0, 1, 0, 0, 0, 0, 0, 0⟩).desiredNetPlabSz = 10000000 ∧
    (adjustDesiredPlabSz ⟨true, 100, 1, 100, 64, 1024, 2⟩
      ⟨100001, 0, 0, 1, 0, 0, 0, 0, 0, 0⟩).allocated = 0 :=
  ⟨rfl,
   ((adjust_desired_plab_sz_algorithm ⟨true, 100, 1, 100, 64, 1024, 2⟩
      ⟨100001, 0, 0, 1, 0, 0, 0, 0, 0, 0⟩ rfl).2.1).trans
     (by norm_num [ewmaSample, plabUsed, Rat.floor_def'] <;> decide),
   (adjust_desired_plab_sz_algorithm ⟨true, 100, 1, 100, 64, 1024, 2⟩
      ⟨100001, 0, 0, 1, 0, 0, 0, 0, 0, 0⟩ rfl).2.2.1⟩

/-- C7 counterexample: a round with `_allocated = 0`, `_wasted = 5` and
`_unused = 0` passes the zero-allocation assert — the checked condition
is only `_unused == 0`, so an allocate-nothing round that reports nonzero
`_wasted` does NOT fire the assertion, refuting the claim that the assert
requires the wasted counter to be zero. -/
theorem zero_alloc_assert_ignores_wasted_cex :
    zeroAllocAssert ⟨0, 5, 0, 0, 0, 0, 0, 0, 0, 0⟩ = true ∧
    (⟨0, 5, 0, 0, 0, 0, 0, 0, 0, 0⟩ : EvacStats).allocated = 0 ∧
    (⟨0, 5, 0, 0, 0, 0, 0, 0, 0, 0⟩ : EvacStats).wasted ≠ 0 := by
  decide

/-- C7 amended: whenever `adjust_desired_plab_sz` runs a round with no
allocation (`_allocated == 0`), it substitutes `_allocated = 1` — the
round behaves exactly as if one word had been allocated — and it asserts
that the UNUSED counter of that round is zero (`_wasted` is only printed
in the assert message, not checked); the assertion never fires under the
precondition that an allocate-nothing round reports no unused space. -/
theorem zero_alloc_round_substitution (c : PlabConfig) (s : EvacStats)
    (h : s.allocated = 0) :
    adjustDesiredPlabSz c s = adjustDesiredPlabSz c { s with allocated := 1 } ∧
    (s.unused = 0 → zeroAllocAssert s = true) := by
  constructor
  · cases hr : c.resizePLAB <;>
      simp [adjustDesiredPlabSz, hr, resetStats, h]
  · intro hu
    simp [zeroAllocAssert, hu]

/-- C7 witness: a concrete allocate-nothing round. -/
theorem zero_alloc_round_substitution_witness :
    (⟨0, 0, 0, 3, 1, 2, 0, 0, 9, 4⟩ : EvacStats).allocated = 0 ∧
    (⟨0, 0, 0, 3, 1, 2, 0, 0, 9, 4⟩ : EvacStats).unused = 0 ∧
    adjustDesiredPlabSz ⟨true, 10, 50, 50, 64, 1024, 1⟩ ⟨0, 0, 0, 3, 1, 2, 0, 0, 9, 4⟩ =
      adjustDesiredPlabSz ⟨true, 10, 50, 50, 64, 1024, 1⟩
        { (⟨0, 0, 0, 3, 1, 2, 0, 0, 9, 4⟩ : EvacStats) with allocated := 1 } ∧
    zeroAllocAssert ⟨0, 0, 0, 3, 1, 2, 0, 0, 9, 4⟩ = true :=
  ⟨rfl, rfl,
   (zero_alloc_round_substitution ⟨true, 10, 50, 50, 64, 1024, 1⟩
     ⟨0, 0, 0, 3, 1, 2, 0, 0, 9, 4⟩ rfl).1,
   (zero_alloc_round_substitution ⟨true, 10, 50, 50, 64, 1024, 1⟩
     ⟨0, 0, 0, 3, 1, 2, 0, 0, 9, 4⟩ rfl).2 rfl⟩

/-- C4: on a humongous region, `oops_on_card_seq_iterate_careful` returns
false — with the visitor applied to no reference — exactly when the start
object's klass pointer is not yet published and no collection is actively
running; in every other case it returns true, and by construction of
`HumongousVisit` the visitor is only ever applied to (part of) the single
humongous object rooted at the start region, never to filler or follower
objects. -/
theorem oops_on_card_humongous_stale (g k d a s : Bool) :
    ((g = false ∧ k = false) →
      oopsOnCardHumongous g k d a s = (false, HumongousVisit.nothing)) ∧
    ((g = true ∨ k = true) → (oopsOnCardHumongous g k d a s).1 = true) ∧
    ((oopsOnCardHumongous g k d a s).2 ≠ HumongousVisit.nothing → d = false) := by
  cases g <;> cases k <;> cases d <;> cases a <;> cases s <;> decide

/-- C4 witness: concrete stale card (no GC active, klass unpublished)
and a concrete processed card (GC active). -/
theorem oops_on_card_humongous_stale_witness :
    ((false = false ∧ false = false) ∧
      oopsOnCardHumongous false false false false false =
        (false, HumongousVisit.nothing)) ∧
    ((true = true ∨ false = true) ∧
      (oopsOnCardHumongous true false false false false).1 = true) :=
  ⟨⟨⟨rfl, rfl⟩,
    (oops_on_card_humongous_stale false false false false false).1 ⟨rfl, rfl⟩⟩,
   ⟨Or.inl rfl,
    (oops_on_card_humongous_stale true false false false false).2.1 (Or.inl rfl)⟩⟩

/-- C5 counterexample: the forwarded header `encode_pointer_as_mark 4096`
(a marked mark word) makes `identity_hash` return the hash bits read from
the mark word itself — NOT the `slow_identity_hash` out-of-line path the
claim requires for forwarded objects. -/
theorem identity_hash_forwarded_cex :
    isMarkedWord (encodePointerAsMark 4096) = true ∧
    identityHash (encodePointerAsMark 4096) ≠ IdentityHashResult.slow ∧
    identityHash (encodePointerAsMark 4096) =
      IdentityHashResult.fromMark (markHash (encodePointerAsMark 4096)) := by
  decide

/-- C5 amended: `identity_hash` returns the cached hash without mutating
the header when the mark word is unlocked and carries a hash; it ALSO
reads the hash straight from the mark word when the mark is marked
(forwarded); the out-of-line `slow_identity_hash` path is taken exactly
when the object is locked (neither unlocked nor marked) or unlocked
without a cached hash. -/
theorem identity_hash_dispatch (m : Nat) :
    (isUnlocked m = true → hasNoHash m = false →
      identityHash m = IdentityHashResult.fromMark (markHash m)) ∧
    (isMarkedWord m = true →
      identityHash m = IdentityHashResult.fromMark (markHash m)) ∧
    (isUnlocked m = false → isMarkedWord m = false →
      identityHash m = IdentityHashResult.slow) ∧
    (isUnlocked m = true → hasNoHash m = true →
      identityHash m = IdentityHashResult.slow) := by
  have hunm : isUnlocked m = true → isMarkedWord m = false := by
    simp only [isUnlocked, isMarkedWord, beq_iff_eq, beq_eq_false_iff_ne]
    omega
  refine ⟨?_, ?_, ?_, ?_⟩
  · intro hu hh
    simp [identityHash, hu, hh]
  · intro hm
    rcases hu : isUnlocked m with _ | _
    · simp [identityHash, hu, hm]
    · rcases hh : hasNoHash m with _ | _
      · simp [identityHash, hu, hh]
      · simp [identityHash, hu, hh, hm]
  · intro hu hm
    simp [identityHash, hu, hm]
  · intro hu hh
    simp [identityHash, hu, hh, hunm hu]

/-- C5 witness: the unlocked mark word 1281 carries cached hash 5, which
the fast path returns. -/
theorem identity_hash_dispatch_witness :
    isUnlocked 1281 = true ∧ hasNoHash 1281 = false ∧
    identityHash 1281 = IdentityHashResult.fromMark 5 :=
  ⟨by decide, by decide,
   ((identity_hash_dispatch 1281).1 (by decide) (by decide)).trans (by decide)⟩

/-- C8: after `update_thresholds` (whose precondition assert `deactivate
< activate` appears as a hypothesis) the stored thresholds satisfy
`deactivation_threshold < activation_threshold`; and the `run_service`
step activates the successor thread only when it is not already active
and the backlog strictly exceeds its activation threshold — a backlog at
or below the successor's activation threshold leaves an idle successor
idle. -/
theorem refine_thresholds_hysteresis (t : RefineThread) (a d : Nat) (hprec : d < a)
    (t2 : RefineThread) (curr : Nat) :
    (updateThresholds t a d).deactivationThreshold <
      (updateThresholds t a d).activationThreshold ∧
    (t2.active = false → curr ≤ t2.activationThreshold →
      maybeActivateNext (some t2) curr = some t2) ∧
    (∀ t3, maybeActivateNext (some t2) curr = some t3 → t3.active = true →
      t2.active = true ∨ t2.activationThreshold < curr) := by
  refine ⟨hprec, ?_, ?_⟩
  · intro hidle hle
    simp [maybeActivateNext, hidle, Nat.not_lt.mpr hle]
  · intro t3 h3 hact
    by_cases ht2 : t2.active = true
    · exact Or.inl ht2
    · by_cases hlt : t2.activationThreshold < curr
      · exact Or.inr hlt
      · exfalso
        have ht2f : t2.active = false := by
          rcases hb : t2.active with _ | _
          · rfl
          · exact absurd hb ht2
        have hcond : (!t2.active && decide (curr > t2.activationThreshold)) = false := by
          rw [ht2f]
          simp [hlt]
        simp only [maybeActivateNext, hcond, Bool.false_eq_true, if_false,
          Option.some.injEq] at h3
        rw [← h3] at hact
        exact ht2 hact

/-- C8 witness: thresholds updated to (activate 20, deactivate 8); a
successor with activation threshold 30 stays idle at backlog 25. -/
theorem refine_thresholds_hysteresis_witness :
    (8:Nat) < 20 ∧
    (⟨false, 30, 10⟩ : RefineThread).active = false ∧ (25:Nat) ≤ 30 ∧
    (updateThresholds ⟨false, 10, 5⟩ 20 8).deactivationThreshold <
      (updateThresholds ⟨false, 10, 5⟩ 20 8).activationThreshold ∧
    maybeActivateNext (some ⟨false, 30, 10⟩) 25 = some ⟨false, 30, 10⟩ :=
  ⟨by decide, rfl, by decide,
   (refine_thresholds_hysteresis ⟨false, 10, 5⟩ 20 8 (by decide) ⟨false, 30, 10⟩ 25).1,
   (refine_thresholds_hysteresis ⟨false, 10, 5⟩ 20 8 (by decide) ⟨false, 30, 10⟩ 25).2.1
     rfl (by decide)⟩

/-- C9: `hr_clear` (with `keep_remset = false`) on a non-humongous region
outside the collection set that is already clear — Free, `top == bottom`,
remembered set empty — leaves `top`, `bottom` and the emptiness of the
remembered set unchanged, for either value of the `clear_space` and
`locked` flags. -/
theorem hr_clear_idempotent (clearSpace locked : Bool) (ts : Nat)
    (r : HeapRegionState)
    (hhum : r.humongousStartRegion = none) (hcs : r.inCollectionSet = false)
    (hfree : r.typ = RegionType.Free) (htop : r.top = r.bottom)
    (hrs : r.remSet = []) :
    (hrClear false clearSpace locked ts r).top = r.top ∧
    (hrClear false clearSpace locked ts r).bottom = r.bottom ∧
    (hrClear false clearSpace locked ts r).remSet = [] := by
  cases clearSpace <;>
    simp [hrClear, g1ContiguousSpaceClear, htop]

/-- C9 witness: a concrete already-clear Free region, cleared again with
`clear_space = true`. -/
theorem hr_clear_idempotent_witness :
    ((⟨RegionType.Free, 4096, 4096, 8192, 4096, 4096, [], 0, -1, none, none,
        0, 0, 4096, 4096, 7, none, false⟩ : HeapRegionState).typ = RegionType.Free ∧
     (⟨RegionType.Free, 4096, 4096, 8192, 4096, 4096, [], 0, -1, none, none,
        0, 0, 4096, 4096, 7, none, false⟩ : HeapRegionState).top = 4096) ∧
    (hrClear false true false 9
      ⟨RegionType.Free, 4096, 4096, 8192, 4096, 4096, [], 0, -1, none, none,
        0, 0, 4096, 4096, 7, none, false⟩).top = 4096 ∧
    (hrClear false true false 9
      ⟨RegionType.Free, 4096, 4096, 8192, 4096, 4096, [], 0, -1, none, none,
        0, 0, 4096, 4096, 7, none, false⟩).bottom = 4096 ∧
    (hrClear false true false 9
      ⟨RegionType.Free, 4096, 4096, 8192, 4096, 4096, [], 0, -1, none, none,
        0, 0, 4096, 4096, 7, none, false⟩).remSet = [] :=
  ⟨⟨rfl, rfl⟩,
   (hr_clear_idempotent true false 9 _ rfl rfl rfl rfl rfl).1,
   (hr_clear_idempotent true false 9 _ rfl rfl rfl rfl rfl).2.1,
   (hr_clear_idempotent true false 9 _ rfl rfl rfl rfl rfl).2.2⟩

/-- `log2Fuel` is exact on powers of two given enough fuel. -/
theorem log2Fuel_pow (k : Nat) : ∀ fuel : Nat, 2 ^ k ≤ fuel →
    log2Fuel fuel (2 ^ k) = k := by
  induction k with
  | zero =>
    intro fuel h
    obtain ⟨f, rfl⟩ : ∃ f, fuel = f + 1 := ⟨fuel - 1, by omega⟩
    simp [log2Fuel]
  | succ k ih =>
    intro fuel h
    have hpk : 1 ≤ 2 ^ k := Nat.one_le_two_pow
    have hps : 2 ^ (k + 1) = 2 ^ k * 2 := pow_succ 2 k
    obtain ⟨f, rfl⟩ : ∃ f, fuel = f + 1 := ⟨fuel - 1, by omega⟩
    have h2 : ¬ 2 ^ (k + 1) < 2 := by omega
    have hdiv : 2 ^ (k + 1) / 2 = 2 ^ k := by omega
    simp only [log2Fuel, if_neg h2, hdiv]
    rw [ih f (by omega)]

/-- `log2_long` is exact on powers of two. -/
theorem log2Long_pow (k : Nat) : log2Long (2 ^ k) = k :=
  log2Fuel_pow k (2 ^ k) (Nat.le_refl _)

/-- The clamp step of `setup_heap_region_size`: clamping a power of two
into power-of-two bounds yields a power of two inside the bounds. -/
theorem clamp_pow_spec (minSize maxSize x : Nat) (hmm : minSize ≤ maxSize)
    (hminPow : ∃ i, minSize = 2 ^ i) (hmaxPow : ∃ j, maxSize = 2 ^ j)
    (hxPow : ∃ l, x = 2 ^ l) :
    (∃ k, (if x < minSize then minSize else if maxSize < x then maxSize else x)
      = 2 ^ k) ∧
    minSize ≤ (if x < minSize then minSize else if maxSize < x then maxSize else x) ∧
    (if x < minSize then minSize else if maxSize < x then maxSize else x) ≤
      maxSize := by
  split_ifs with h1 h2
  · exact ⟨hminPow, Nat.le_refl _, hmm⟩
  · exact ⟨hmaxPow, hmm, Nat.le_refl _⟩
  · exact ⟨hxPow, Nat.le_of_not_lt h1, Nat.le_of_not_lt h2⟩

/-- C10: any successful `setup_heap_region_size` run — one on which every
`guarantee` holds — leaves `GrainBytes` a power of two within the region
bounds, `GrainWords = GrainBytes / HeapWordSize` (HeapWordSize = 8),
`(1 << LogOfHRGrainWords) == GrainWords`, and `CardsPerRegion =
GrainBytes >> card_shift`; and its guarantees require all five globals to
still be zero, so it can have run successfully only once per process.
The bounds are fixed powers of two with `8 ≤ min ≤ max` (modelled from
the spec: `HeapRegionBounds` is not among the sources), the target
region number is positive, and an explicitly-set `G1HeapRegionSize` flag
is nonzero (the value `log2_long` is applied to is positive). -/
theorem setup_heap_region_size_invariant
    (minSize maxSize targetNumber cardShift g1HeapRegionSize : Nat)
    (flagIsDefault : Bool) (initialHeapSize maxHeapSize : Nat) (g : HRGlobals)
    (hmin8 : 8 ≤ minSize) (hminmax : minSize ≤ maxSize)
    (hminPow : ∃ i, minSize = 2 ^ i) (hmaxPow : ∃ j, maxSize = 2 ^ j)
    (htarget : 1 ≤ targetNumber)
    (hflag : flagIsDefault = false → 1 ≤ g1HeapRegionSize)
    (hok : (setupHeapRegionSize minSize maxSize targetNumber cardShift
      g1HeapRegionSize flagIsDefault initialHeapSize maxHeapSize g).2 = true) :
    (∃ k, (setupHeapRegionSize minSize maxSize targetNumber cardShift
      g1HeapRegionSize flagIsDefault initialHeapSize maxHeapSize g).1.grainBytes
        = 2 ^ k) ∧
    minSize ≤ (setupHeapRegionSize minSize maxSize targetNumber cardShift
      g1HeapRegionSize flagIsDefault initialHeapSize maxHeapSize g).1.grainBytes ∧
    (setupHeapRegionSize minSize maxSize targetNumber cardShift
      g1HeapRegionSize flagIsDefault initialHeapSize maxHeapSize g).1.grainBytes
        ≤ maxSize ∧
    (setupHeapRegionSize minSize maxSize targetNumber cardShift
      g1HeapRegionSize flagIsDefault initialHeapSize maxHeapSize g).1.grainWords =
      (setupHeapRegionSize minSize maxSize targetNumber cardShift
        g1HeapRegionSize flagIsDefault initialHeapSize maxHeapSize g).1.grainBytes
          / 8 ∧
    2 ^ (setupHeapRegionSize minSize maxSize targetNumber cardShift
      g1HeapRegionSize flagIsDefault initialHeapSize maxHeapSize g).1.logOfHRGrainWords =
      (setupHeapRegionSize minSize maxSize targetNumber cardShift
        g1HeapRegionSize flagIsDefault initialHeapSize maxHeapSize g).1.grainWords ∧
    (setupHeapRegionSize minSize maxSize targetNumber cardShift
      g1HeapRegionSize flagIsDefault initialHeapSize maxHeapSize g).1.cardsPerRegion =
      (setupHeapRegionSize minSize maxSize targetNumber cardShift
        g1HeapRegionSize flagIsDefault initialHeapSize maxHeapSize g).1.grainBytes
          >>> cardShift ∧
    g = ⟨0, 0, 0, 0, 0⟩ := by
  have hclamp := clamp_pow_spec minSize maxSize
    (1 <<< log2Long (if flagIsDefault then
      max ((initialHeapSize + maxHeapSize) / 2 / targetNumber) minSize
    else g1HeapRegionSize)) hminmax hminPow hmaxPow
    ⟨log2Long (if flagIsDefault then
      max ((initialHeapSize + maxHeapSize) / 2 / targetNumber) minSize
    else g1HeapRegionSize), Nat.one_shiftLeft _⟩
  obtain ⟨⟨k, hk⟩, hge, hle⟩ := hclamp
  have hout : (setupHeapRegionSize minSize maxSize targetNumber cardShift
      g1HeapRegionSize flagIsDefault initialHeapSize maxHeapSize g).1 =
      { logOfHRGrainBytes := log2Long (2 ^ k),
        logOfHRGrainWords := log2Long (2 ^ k) - 3,
        grainBytes := 2 ^ k,
        grainWords := 2 ^ k >>> 3,
        cardsPerRegion := 2 ^ k >>> cardShift } := by
    simp only [setupHeapRegionSize, hk]
  have hlog : log2Long (2 ^ k) = k := log2Long_pow k
  have hk3 : 3 ≤ k := by
    have h8 : (2:Nat) ^ 3 ≤ 2 ^ k := by
      calc (2:Nat) ^ 3 = 8 := by norm_num
        _ ≤ minSize := hmin8
        _ ≤ 2 ^ k := hk ▸ hge
    exact (Nat.pow_le_pow_iff_right (by norm_num)).mp h8
  have hwords : 2 ^ k >>> 3 = 2 ^ (k - 3) := by
    rw [Nat.shiftRight_eq_div_pow, Nat.pow_div hk3 (by norm_num)]
  refine ⟨⟨k, by rw [hout]⟩, ?_, ?_, ?_, ?_, ?_, ?_⟩
  · rw [hout]
    exact hk ▸ hge
  · rw [hout]
    exact hk ▸ hle
  · rw [hout]
    simp only [Nat.shiftRight_eq_div_pow]
  · rw [hout]
    simp only [hlog, hwords]
  · rw [hout]
  · have hok2 := hok
    simp only [setupHeapRegionSize, Bool.and_eq_true, beq_iff_eq] at hok2
    obtain ⟨⟨⟨⟨⟨h1, h2⟩, h3⟩, h4⟩, h5⟩, h6⟩ := hok2
    clear hok hout h6
    cases g
    simp only [HRGlobals.mk.injEq]
    exact ⟨h1, h2, h3, h4, h5⟩

/-- C10 witness: default flag, 64 MiB initial / 256 MiB maximum heap,
bounds 1 MiB and 32 MiB, target 2048 regions, card shift 9, all globals
still zero — the run succeeds and settles on 1 MiB regions. -/
theorem setup_heap_region_size_invariant_witness :
    ((8:Nat) ≤ 2 ^ 20 ∧ (2:Nat) ^ 20 ≤ 2 ^ 25 ∧ (1:Nat) ≤ 2048 ∧
     (setupHeapRegionSize (2 ^ 20) (2 ^ 25) 2048 9 0 true (2 ^ 26) (2 ^ 28)
       ⟨0, 0, 0, 0, 0⟩).2 = true) ∧
    ((∃ k, (setupHeapRegionSize (2 ^ 20) (2 ^ 25) 2048 9 0 true (2 ^ 26) (2 ^ 28)
       ⟨0, 0, 0, 0, 0⟩).1.grainBytes = 2 ^ k) ∧
     (2:Nat) ^ 20 ≤ (setupHeapRegionSize (2 ^ 20) (2 ^ 25) 2048 9 0 true (2 ^ 26)
       (2 ^ 28) ⟨0, 0, 0, 0, 0⟩).1.grainBytes) :=
  ⟨⟨by norm_num, by norm_num, by norm_num, by decide⟩,
   (setup_heap_region_size_invariant (2 ^ 20) (2 ^ 25) 2048 9 0 true (2 ^ 26)
      (2 ^ 28) ⟨0, 0, 0, 0, 0⟩ (by norm_num) (by norm_num) ⟨20, rfl⟩ ⟨25, rfl⟩
      (by norm_num) (fun h => absurd h (by decide)) (by decide)).1,
   (setup_heap_region_size_invariant (2 ^ 20) (2 ^ 25) 2048 9 0 true (2 ^ 26)
      (2 ^ 28) ⟨0, 0, 0, 0, 0⟩ (by norm_num) (by norm_num) ⟨20, rfl⟩ ⟨25, rfl⟩
      (by norm_num) (fun h => absurd h (by decide)) (by decide)).2.1⟩

end GC
